import Mathlib

/-!
Shallow embedding of `src/dynamics/pendulum.py` over the reals.

The source operates on single-precision numpy/keras tensors; here every
scalar is modelled as a real number, a batch is a list of rows, and the
trigonometric and modulo operations are the exact real ones.  A numpy
matrix with `n` rows is a `List` of length `n`; `x_combined` rows carry
`(θ, θ̇, u)`.  Fallible numpy indexing (reading `x[0, 0]` of an empty
batch) is modelled with `Option` / explicit error constructors.
-/

noncomputable section

namespace Pendulum

/-- Gravity constant, `g = 10.` in `pendulum_dynamics`. -/
def g : ℝ := 10

/-- Pendulum length, `l = 1.` in `pendulum_dynamics`. -/
def l : ℝ := 1

/-- Pendulum mass, `m = 1.` in `pendulum_dynamics`. -/
def m : ℝ := 1

/-- Integration timestep, `deltaT = 0.05` in `pendulum_dynamics`. -/
def deltaT : ℝ := 0.05

/-- Single-precision machine epsilon, `np.finfo('float32').eps = 2⁻²³`. -/
def eps32 : ℝ := 1 / 2 ^ 23

/-- Floored modulo on reals: the semantics of `np.mod` / `KK.mod` on
floats, `fmod a b = a - b*⌊a/b⌋` (result has the sign of `b`). -/
def fmod (a b : ℝ) : ℝ := a - b * (⌊a / b⌋ : ℤ)

/-- One row of the combined input matrix handed to the dynamics and cost
functions: columns `(θ, θ̇, u)` of `x_combined`. -/
abbrev Row : Type := ℝ × ℝ × ℝ

/-- Embeds `pendulum_dynamics(x_combined)`.  `th = x[0, 0]` and
`thdot = x[0, 1]` are read from the first row only (an empty batch is a
numpy index error, modelled as `none`), while `u = x_combined[:, 2:]` is
the whole control column, so `newthdot` and `newth` are column vectors
with one entry per input row. -/
def pendulum_dynamics (xc : List Row) : Option (List (ℝ × ℝ)) :=
  match xc with
  | [] => none
  | r0 :: _ =>
    let th := r0.1
    let thdot := r0.2.1
    some (xc.map (fun r =>
      let u := r.2.2
      let newthdot := thdot +
        (-3 * g / (2 * l) * Real.sin (th + Real.pi) + 3 / (m * l ^ 2) * u) * deltaT
      let newth := th + newthdot * deltaT
      (newth, newthdot)))

/-- The angle-wrapping subexpression of `pendulum_cost`:
`normalized_th = KK.mod((th+np.pi), (2*np.pi)) - np.pi`. -/
def normalized_th (th : ℝ) : ℝ := fmod (th + Real.pi) (2 * Real.pi) - Real.pi

/-- Embeds `pendulum_cost(x_combined)`.  `th` and `thdot` come from the
first row only; `u` is the whole control column, so the result is a
column with one cost entry per input row. -/
def pendulum_cost (xc : List Row) : Option (List ℝ) :=
  match xc with
  | [] => none
  | r0 :: _ =>
    let th := r0.1
    let thdot := r0.2.1
    some (xc.map (fun r =>
      let u := r.2.2
      normalized_th th ^ 2 + 0.1 * thdot ^ 2 + 0.001 * u ^ 2))

/-- Embeds `pendulum_goal_generator()`:
`np.matrix([[2*np.pi*np.random.randint(-3, 4), 0.0]])`, a 1-row state.
The random draw is modelled by the parameter `k`, which
`np.random.randint(-3, 4)` confines to `{-3, …, 3}`. -/
def pendulum_goal_generator (k : ℤ) : List (ℝ × ℝ) := [(2 * Real.pi * (k : ℝ), 0.0)]

/-- Possible outcomes of `pendulum_goal_checker`: dropping into the
interactive `ipdb` debugger, a numpy index error on `x[0, 0]`, or a
normal boolean answer (modelled as the `Prop` the code evaluates). -/
inductive CheckerOutcome : Type 1 where
  | debugger : CheckerOutcome
  | indexError : CheckerOutcome
  | answer : Prop → CheckerOutcome

/-- Embeds `pendulum_goal_checker(x)`: if `x.shape[0] == 2` the code
drops into `ipdb`; otherwise it returns
`1.0 - np.cos(x[0, 0]) <= np.finfo('float32').eps and x[0, 1] == 0`
(reading row 0, an index error on an empty state). -/
def pendulum_goal_checker (x : List (ℝ × ℝ)) : CheckerOutcome :=
  if x.length = 2 then CheckerOutcome.debugger
  else
    match x with
    | [] => CheckerOutcome.indexError
    | r0 :: _ => CheckerOutcome.answer (1.0 - Real.cos r0.1 ≤ eps32 ∧ r0.2 = 0)

/-- The checker answered normally and the answer is true. -/
def CheckerOutcome.accepts : CheckerOutcome → Prop
  | CheckerOutcome.answer p => p
  | _ => False

end Pendulum

namespace Pendulum

/-- **C1.** For every state `(θ, θ̇)` and control `u`, the dynamics
integrator returns the pair `(θ', θ̇')` with
`θ̇' = θ̇ + (−(3g)/(2l)·sin(θ+π) + 3/(m·l²)·u)·Δt` and `θ' = θ + θ̇'·Δt`,
with the fixed constants `g = 10`, `l = 1`, `m = 1`, `Δt = 0.05`. -/
theorem dynamics_formula (θ θd u : ℝ) :
    pendulum_dynamics [(θ, θd, u)] =
      some [(θ + (θd + (-(3 * g) / (2 * l) * Real.sin (θ + Real.pi)
                          + 3 / (m * l ^ 2) * u) * deltaT) * deltaT,
             θd + (-(3 * g) / (2 * l) * Real.sin (θ + Real.pi)
                          + 3 / (m * l ^ 2) * u) * deltaT)]
      ∧ g = 10 ∧ l = 1 ∧ m = 1 ∧ deltaT = 0.05 := by
  refine ⟨?_, rfl, rfl, rfl, rfl⟩
  simp only [pendulum_dynamics, List.map_cons, List.map_nil, Option.some.injEq,
    List.cons.injEq, and_true, Prod.mk.injEq]
  constructor <;> ring

/-- **C2.** For every state `(θ, θ̇)` and control `u`, the cost function
returns `normalized_θ² + 0.1·θ̇² + 0.001·u²` where
`normalized_θ = ((θ+π) mod 2π) − π` (floored mod, numpy semantics). -/
theorem cost_formula (θ θd u : ℝ) :
    pendulum_cost [(θ, θd, u)] =
      some [(fmod (θ + Real.pi) (2 * Real.pi) - Real.pi) ^ 2
              + 0.1 * θd ^ 2 + 0.001 * u ^ 2] := by
  simp only [pendulum_cost, normalized_th, List.map_cons, List.map_nil]

/-- The floored modulo lands in `[0, b)` for positive `b`. -/
lemma fmod_bounds (a b : ℝ) (hb : 0 < b) : 0 ≤ fmod a b ∧ fmod a b < b := by
  have hb0 : b ≠ 0 := ne_of_gt hb
  have h : fmod a b = b * Int.fract (a / b) := by
    rw [fmod, Int.fract, mul_sub, mul_div_cancel₀ a hb0]
  constructor
  · rw [h]; exact mul_nonneg hb.le (Int.fract_nonneg _)
  · rw [h]
    calc b * Int.fract (a / b) < b * 1 := (mul_lt_mul_left hb).mpr (Int.fract_lt_one _)
      _ = b := mul_one b

/-- **C5 counterexample.** At `θ = π` the cost function's normalized
angle is exactly `−π`, which does not lie in the half-open interval
`(−π, π]` claimed by the spec. -/
theorem normalized_pi_not_in_Ioc :
    normalized_th Real.pi = -Real.pi ∧
    ¬ (-Real.pi < normalized_th Real.pi ∧ normalized_th Real.pi ≤ Real.pi) := by
  have hne : (2 : ℝ) * Real.pi ≠ 0 := by positivity
  have hval : normalized_th Real.pi = -Real.pi := by
    rw [normalized_th, fmod]
    rw [show Real.pi + Real.pi = 2 * Real.pi by ring, div_self hne]
    norm_num
  exact ⟨hval, by rw [hval]; simp⟩

/-- **C5 amended.** For every real `θ`, the normalized angle
`((θ+π) mod 2π) − π` computed by the cost function lies in the half-open
interval `[−π, π)` (closed at `−π`, open at `π`: floored mod lands in
`[0, 2π)`). -/
theorem normalized_mem_Ico (θ : ℝ) :
    -Real.pi ≤ normalized_th θ ∧ normalized_th θ < Real.pi := by
  have h := fmod_bounds (θ + Real.pi) (2 * Real.pi) (by positivity)
  rw [normalized_th]
  constructor
  · linarith [h.1]
  · linarith [h.2]

/-- **C6 counterexample.** A 1-row state (fewer than 2 rows) is NOT
rejected by the goal checker: it returns a normal boolean answer and, in
particular, does not drop into the debugger.  The debugger branch in the
code fires on `x.shape[0] == 2`, not on fewer than 2 rows. -/
theorem checker_one_row_answers :
    [((0 : ℝ), (0 : ℝ))].length < 2 ∧
    (∃ p, pendulum_goal_checker [((0 : ℝ), (0 : ℝ))] = CheckerOutcome.answer p) := by
  exact ⟨by norm_num, ⟨_, rfl⟩⟩

/-- **C6 amended.** The goal checker drops into the interactive debugger
exactly when the state has exactly 2 rows; a 1-row state (the normal
case) gets a normal boolean answer, and only the empty state fails (with
an index error, not the debugger). -/
theorem checker_debugger_iff (x : List (ℝ × ℝ)) :
    (pendulum_goal_checker x = CheckerOutcome.debugger ↔ x.length = 2) ∧
    (x.length = 1 → ∃ p, pendulum_goal_checker x = CheckerOutcome.answer p) ∧
    (x = [] → pendulum_goal_checker x = CheckerOutcome.indexError) := by
  rcases x with _ | ⟨a, _ | ⟨b, _ | ⟨c, t⟩⟩⟩
  · refine ⟨by simp [pendulum_goal_checker], by simp, fun _ => rfl⟩
  · refine ⟨by simp [pendulum_goal_checker], fun _ => ⟨_, rfl⟩, by simp⟩
  · refine ⟨by simp [pendulum_goal_checker], by simp, by simp⟩
  · refine ⟨?_, by simp, by simp⟩
    have hlen : (a :: b :: c :: t).length ≠ 2 := by simp
    rw [pendulum_goal_checker, if_neg hlen]
    simp [hlen]

/-- **C6 amended witness.** Applying the amended theorem at the 1-row
state `[(0, 0)]`, whose length is 1. -/
theorem checker_debugger_iff_witness :
    ∃ p, pendulum_goal_checker [((0 : ℝ), (0 : ℝ))] = CheckerOutcome.answer p :=
  (checker_debugger_iff [((0 : ℝ), (0 : ℝ))]).2.1 rfl

/-- **C7.** On 1-row states the goal checker returns true exactly when
`1 − cos θ ≤ ε₃₂` and `θ̇ = 0` exactly; in particular it accepts
`(0, 0)` and `(2π, 0)` and rejects `(π, 0)`. -/
theorem checker_characterization :
    (∀ θ θd : ℝ,
        (pendulum_goal_checker [(θ, θd)]).accepts ↔
          (1.0 - Real.cos θ ≤ eps32 ∧ θd = 0)) ∧
    (pendulum_goal_checker [((0 : ℝ), (0 : ℝ))]).accepts ∧
    (pendulum_goal_checker [(2 * Real.pi, (0 : ℝ))]).accepts ∧
    ¬ (pendulum_goal_checker [(Real.pi, (0 : ℝ))]).accepts := by
  refine ⟨fun θ θd => Iff.rfl, ?_, ?_, ?_⟩
  · show 1.0 - Real.cos 0 ≤ eps32 ∧ (0 : ℝ) = 0
    norm_num [Real.cos_zero, eps32]
  · show 1.0 - Real.cos (2 * Real.pi) ≤ eps32 ∧ (0 : ℝ) = 0
    norm_num [Real.cos_two_pi, eps32]
  · show ¬ (1.0 - Real.cos Real.pi ≤ eps32 ∧ (0 : ℝ) = 0)
    norm_num [Real.cos_pi, eps32]

/-- **C8.** For every state `(θ, θ̇)` and control `u` (all reals, hence
finite), the cost function returns a value, and that value is `≥ 0`. -/
theorem cost_nonneg (θ θd u : ℝ) :
    ∃ c, pendulum_cost [(θ, θd, u)] = some [c] ∧ 0 ≤ c := by
  refine ⟨normalized_th θ ^ 2 + 0.1 * θd ^ 2 + 0.001 * u ^ 2, ?_, by positivity⟩
  simp only [pendulum_cost, List.map_cons, List.map_nil]

/-- Factoring the per-row computation through the control column. -/
lemma map_on_u {α : Type} (F : ℝ → α) (b : List Row) :
    b.map (fun r => F r.2.2) = (b.map (fun r => r.2.2)).map F := by
  rw [List.map_map]; rfl

/-- **C9.** The dynamics and cost functions read the state only from the
first row of the batch: two nonempty batches agreeing on the first row's
state entries and on the whole control column produce identical outputs
in every output row, whatever the state rows beyond the first hold. -/
theorem batch_reads_first_row_only (r1 r2 : Row) (t1 t2 : List Row)
    (hth : r1.1 = r2.1) (hthd : r1.2.1 = r2.2.1)
    (hu : (r1 :: t1).map (fun r => r.2.2) = (r2 :: t2).map (fun r => r.2.2)) :
    pendulum_dynamics (r1 :: t1) = pendulum_dynamics (r2 :: t2) ∧
    pendulum_cost (r1 :: t1) = pendulum_cost (r2 :: t2) := by
  have hd : ∀ (r : Row) (t : List Row),
      pendulum_dynamics (r :: t) =
        some (((r :: t).map (fun x => x.2.2)).map (fun u =>
          (r.1 + (r.2.1 + (-3 * g / (2 * l) * Real.sin (r.1 + Real.pi)
                    + 3 / (m * l ^ 2) * u) * deltaT) * deltaT,
           r.2.1 + (-3 * g / (2 * l) * Real.sin (r.1 + Real.pi)
                    + 3 / (m * l ^ 2) * u) * deltaT))) := by
    intro r t
    simp only [pendulum_dynamics]
    rw [← map_on_u]
  have hc : ∀ (r : Row) (t : List Row),
      pendulum_cost (r :: t) =
        some (((r :: t).map (fun x => x.2.2)).map (fun u =>
          normalized_th r.1 ^ 2 + 0.1 * r.2.1 ^ 2 + 0.001 * u ^ 2)) := by
    intro r t
    simp only [pendulum_cost]
    rw [← map_on_u]
  refine ⟨?_, ?_⟩
  · rw [hd, hd, hth, hthd, hu]
  · rw [hc, hc, hth, hthd, hu]

/-- **C9 witness.** Two 2-row batches agreeing on the first state row
and on the control column, differing in the second state row. -/
theorem batch_reads_first_row_only_witness :
    (pendulum_dynamics [((0 : ℝ), (0 : ℝ), (1 : ℝ)), (5, 5, 2)]
        = pendulum_dynamics [((0 : ℝ), (0 : ℝ), (1 : ℝ)), (7, 9, 2)]) ∧
    (pendulum_cost [((0 : ℝ), (0 : ℝ), (1 : ℝ)), (5, 5, 2)]
        = pendulum_cost [((0 : ℝ), (0 : ℝ), (1 : ℝ)), (7, 9, 2)]) :=
  batch_reads_first_row_only _ _ _ _ rfl rfl rfl

/-- **C10.** Every state the goal generator can produce — angle `2πk`
for `k ∈ {−3, …, 3}`, angular velocity 0, as a 1-row state — is accepted
by the goal checker, without entering the malformed-input (debugger)
branch. -/
theorem generated_goals_accepted (k : ℤ) (h1 : -3 ≤ k) (h2 : k ≤ 3) :
    (pendulum_goal_checker (pendulum_goal_generator k)).accepts ∧
    pendulum_goal_checker (pendulum_goal_generator k) ≠ CheckerOutcome.debugger := by
  have hcos : Real.cos (2 * Real.pi * (k : ℝ)) = 1 := by
    have h := Real.cos_int_mul_two_pi k
    rw [show ((k : ℝ) * (2 * Real.pi)) = 2 * Real.pi * (k : ℝ) by ring] at h
    exact h
  constructor
  · show 1.0 - Real.cos (2 * Real.pi * (k : ℝ)) ≤ eps32 ∧ (0.0 : ℝ) = 0
    rw [hcos]
    norm_num [eps32]
  · intro hcontra
    exact CheckerOutcome.noConfusion hcontra

/-- **C10 witness.** The goal with `k = 3` is accepted. -/
theorem generated_goals_accepted_witness :
    ((-3 : ℤ) ≤ 3 ∧ (3 : ℤ) ≤ 3) ∧
    ((pendulum_goal_checker (pendulum_goal_generator 3)).accepts ∧
      pendulum_goal_checker (pendulum_goal_generator 3) ≠ CheckerOutcome.debugger) :=
  ⟨⟨by decide, by decide⟩, generated_goals_accepted 3 (by decide) (by decide)⟩

/-- The model wrapper's prediction on a single `(1,2)` state and `(1,1)`
control, as both comparison harnesses call it: (next state, cost).  The
`getD`/`headD` defaults are never reached, since a singleton batch
always yields `some` of a singleton column. -/
def predict1 (x : ℝ × ℝ) (u : ℝ) : (ℝ × ℝ) × ℝ :=
  (((pendulum_dynamics [(x.1, x.2, u)]).getD []).headD (0, 0),
   ((pendulum_cost [(x.1, x.2, u)]).getD []).headD 0)

/-- The reference simulator collaborator, abstracted: the state that
`reset()` leaves it in, and a deterministic `step` mapping the current
state and a control to (next state, reward).  The randomness of the real
simulator (reset state, sampled controls) is supplied from outside as
data. -/
structure GymEnv : Type where
  state0 : ℝ × ℝ
  step : ℝ × ℝ → ℝ → (ℝ × ℝ) × ℝ

/-- Loop-carried data of the comparison loops: the tracked simulator
state `x_t` and the two running totals. -/
structure HarnessState : Type where
  x : ℝ × ℝ
  totalState : ℝ
  totalLoss : ℝ

/-- One iteration of the loop shared verbatim by `compare_to_gym` and
`compare_to_gym_batched`: step the simulator, evaluate the model on the
previous tracked state and the same control, form the squared state and
loss errors, and add each to its total only inside the flag branch
(`if diff >= np.finfo('float32').eps`). -/
def compareStep (stp : ℝ × ℝ → ℝ → (ℝ × ℝ) × ℝ) (s : HarnessState) (u : ℝ) :
    HarnessState :=
  let env_x1 := (stp s.x u).1
  let env_loss := (stp s.x u).2
  let k := predict1 s.x u
  let state_diff := (env_x1.1 - k.1.1) ^ 2 + (env_x1.2 - k.1.2) ^ 2
  let loss_diff := (env_loss + k.2) ^ 2
  { x := env_x1
    totalState := if eps32 ≤ state_diff then s.totalState + state_diff else s.totalState
    totalLoss := if eps32 ≤ loss_diff then s.totalLoss + loss_diff else s.totalLoss }

/-- Embeds `Pendulum.compare_to_gym`: from the reset state, run the loop
once per sampled control and report the two cumulative totals. -/
def compare_to_gym (env : GymEnv) (controls : List ℝ) : ℝ × ℝ :=
  let fin := controls.foldl (compareStep env.step) ⟨env.state0, 0, 0⟩
  (fin.totalState, fin.totalLoss)

/-- Embeds `Pendulum.compare_to_gym_batched`: it pre-samples a
`batch_size*time_steps` grid `us` of controls that the loop never reads
(the dead allocation, kept here as `_us`), resets again, and then runs
the very same per-step loop on a single trajectory, regardless of
`batch_size`. -/
def compare_to_gym_batched (batch_size : ℕ) (env : GymEnv)
    (presampled : List ℝ) (controls : List ℝ) : ℝ × ℝ :=
  let _us := presampled.take (batch_size * controls.length)
  let fin := controls.foldl (compareStep env.step) ⟨env.state0, 0, 0⟩
  (fin.totalState, fin.totalLoss)

/-- **C3.** Run on the same reference-simulator behaviour (same reset
state, same deterministic step) and the same in-loop random control
sequence, the batched harness with `batch_size = 1` and the single-step
harness produce identical cumulative state- and cost-divergence
totals. -/
theorem batched_one_eq_single (env : GymEnv) (presampled controls : List ℝ) :
    compare_to_gym_batched 1 env presampled controls
      = compare_to_gym env controls := rfl

/-- The per-step (state, loss) squared errors of a comparison run, in
order, before any epsilon thresholding. -/
def stepDiffs (stp : ℝ × ℝ → ℝ → (ℝ × ℝ) × ℝ) : ℝ × ℝ → List ℝ → List (ℝ × ℝ)
  | _, [] => []
  | x, u :: us =>
    (((stp x u).1.1 - (predict1 x u).1.1) ^ 2
        + ((stp x u).1.2 - (predict1 x u).1.2) ^ 2,
      ((stp x u).2 + (predict1 x u).2) ^ 2) :: stepDiffs stp (stp x u).1 us

/-- One unfolding of `compareStep` on an explicit record. -/
lemma compareStep_def (stp : ℝ × ℝ → ℝ → (ℝ × ℝ) × ℝ) (x : ℝ × ℝ) (a b u : ℝ) :
    compareStep stp ⟨x, a, b⟩ u =
      ⟨(stp x u).1,
       if eps32 ≤ ((stp x u).1.1 - (predict1 x u).1.1) ^ 2
            + ((stp x u).1.2 - (predict1 x u).1.2) ^ 2
       then a + (((stp x u).1.1 - (predict1 x u).1.1) ^ 2
            + ((stp x u).1.2 - (predict1 x u).1.2) ^ 2) else a,
       if eps32 ≤ ((stp x u).2 + (predict1 x u).2) ^ 2
       then b + ((stp x u).2 + (predict1 x u).2) ^ 2 else b⟩ := rfl

/-- The comparison loop's totals are the sums of the flagged (above
epsilon) per-step squared errors, on top of the starting accumulators. -/
lemma foldl_totals (stp : ℝ × ℝ → ℝ → (ℝ × ℝ) × ℝ) (us : List ℝ)
    (x : ℝ × ℝ) (a b : ℝ) :
    (us.foldl (compareStep stp) ⟨x, a, b⟩).totalState
        = a + ((stepDiffs stp x us).map
            (fun d => if eps32 ≤ d.1 then d.1 else 0)).sum ∧
    (us.foldl (compareStep stp) ⟨x, a, b⟩).totalLoss
        = b + ((stepDiffs stp x us).map
            (fun d => if eps32 ≤ d.2 then d.2 else 0)).sum := by
  induction us generalizing x a b with
  | nil => simp [stepDiffs]
  | cons u us ih =>
    simp only [List.foldl_cons, stepDiffs, List.map_cons, List.sum_cons,
      compareStep_def]
    obtain ⟨ih1, ih2⟩ := ih (stp x u).1
      (if eps32 ≤ ((stp x u).1.1 - (predict1 x u).1.1) ^ 2
            + ((stp x u).1.2 - (predict1 x u).1.2) ^ 2
       then a + (((stp x u).1.1 - (predict1 x u).1.1) ^ 2
            + ((stp x u).1.2 - (predict1 x u).1.2) ^ 2) else a)
      (if eps32 ≤ ((stp x u).2 + (predict1 x u).2) ^ 2
       then b + ((stp x u).2 + (predict1 x u).2) ^ 2 else b)
    rw [ih1, ih2]
    constructor <;> · split_ifs <;> ring

/-- **C4 amended.** In the single-step harness, each reported cumulative
total equals the sum over the time steps whose squared error reaches
single-precision epsilon (the flagged steps); steps whose squared error
is below epsilon contribute nothing to the totals. -/
theorem totals_are_flagged_sums (env : GymEnv) (controls : List ℝ) :
    compare_to_gym env controls =
      (((stepDiffs env.step env.state0 controls).map
          (fun d => if eps32 ≤ d.1 then d.1 else 0)).sum,
       ((stepDiffs env.step env.state0 controls).map
          (fun d => if eps32 ≤ d.2 then d.2 else 0)).sum) := by
  obtain ⟨h1, h2⟩ := foldl_totals env.step controls env.state0 0 0
  show ((controls.foldl (compareStep env.step) ⟨env.state0, 0, 0⟩).totalState,
        (controls.foldl (compareStep env.step) ⟨env.state0, 0, 0⟩).totalLoss) = _
  rw [h1, h2, zero_add, zero_add]

/-- `normalized_th 0 = 0`: the wrap fixes the upright angle. -/
lemma normalized_th_zero : normalized_th 0 = 0 := by
  have hdiv : ((0 : ℝ) + Real.pi) / (2 * Real.pi) = 1 / 2 := by
    rw [zero_add]
    rw [div_eq_iff (by positivity : (2 : ℝ) * Real.pi ≠ 0)]
    ring
  have hfl : ⌊(1 : ℝ) / 2⌋ = 0 := by
    rw [Int.floor_eq_zero_iff]
    constructor <;> norm_num
  rw [normalized_th, fmod, hdiv, hfl]
  push_cast
  ring

/-- The model's prediction at the resting state under zero torque:
next state `(0, 0)` and cost `0`. -/
lemma predict1_zero : predict1 (0, 0) 0 = ((0, 0), 0) := by
  have hs : Real.sin ((0 : ℝ) + Real.pi) = 0 := by rw [zero_add, Real.sin_pi]
  unfold predict1
  simp only [pendulum_dynamics, pendulum_cost, List.map_cons, List.map_nil,
    Option.getD_some, List.headD_cons, hs, normalized_th_zero]
  norm_num [g, l, m, deltaT]

/-- A reference simulator that resets to `(0, 0)` and whose every step
lands at `(2⁻¹², 0)` with reward `0`: against the analytical model the
squared state error of the single step under control `0` is `2⁻²⁴`,
positive but strictly below `eps32 = 2⁻²³`. -/
def cexEnv : GymEnv := ⟨(0, 0), fun _ _ => ((1 / 2 ^ 12, 0), 0)⟩

/-- **C4 counterexample.** On `cexEnv` with the one-step control
sequence `[0]`, the reported cumulative state-divergence total is `0`,
while the sum over all time steps of the per-step squared state error is
`2⁻²⁴ ≠ 0`: a sub-epsilon step is dropped from the total, so the total
does not equal the sum of every step's squared error. -/
theorem totals_drop_subepsilon_steps :
    (compare_to_gym cexEnv [0]).1 = 0 ∧
    ((stepDiffs cexEnv.step cexEnv.state0 [0]).map Prod.fst).sum = 1 / 2 ^ 24 ∧
    ((1 : ℝ) / 2 ^ 24) ≠ 0 := by
  have hk := predict1_zero
  refine ⟨?_, ?_, by norm_num⟩
  · show (([(0 : ℝ)]).foldl (compareStep cexEnv.step) ⟨(0, 0), 0, 0⟩).totalState = 0
    rw [List.foldl_cons, compareStep_def, List.foldl_nil]
    simp only [cexEnv, hk]
    norm_num [eps32]
  · simp only [stepDiffs, cexEnv, hk, List.map_cons, List.map_nil, List.sum_cons,
      List.sum_nil]
    norm_num

end Pendulum
